import Mathlib

/-!
Shallow embedding of the weight-scatter diagnostic from
`docs/tutorials/rescale_AS209_weights.py` (MPoL-dev/visread tutorial).

Numeric model: the script's floating-point arithmetic is embedded as exact
arithmetic in a field `K` (instantiated at `ℝ` in the theorems); a complex
numpy entry is a pair `(re, im) : K × K`.  `np.sqrt` is passed as an explicit
function argument so that the definitions stay computable; the theorems
instantiate it with `Real.sqrt`.  Arrays are nested lists in the numpy axis
order of the script: `data`, `model_data`, `flag` are indexed
`[polarization][channel][sample]`, `weight` is indexed
`[polarization][sample]`.
-/

set_option autoImplicit false

namespace VisRead

section Arith

variable {K : Type} [Field K]

/-- Elementwise complex subtraction `data - model_data` on one entry. -/
def csub (x y : K × K) : K × K := (x.1 - y.1, x.2 - y.2)

/-- Division of a complex entry by a real scalar (numpy `residuals / sigma`). -/
def cdivR (x : K × K) (s : K) : K × K := (x.1 / s, x.2 / s)

/-- Multiplication of a complex entry by a real scalar. -/
def cmulR (x : K × K) (s : K) : K × K := (x.1 * s, x.2 * s)

/-- `residuals = data - model_data` (elementwise over [pol][chan][sample]). -/
def residuals_of (data model_data : List (List (List (K × K)))) :
    List (List (List (K × K))) :=
  List.zipWith (List.zipWith (List.zipWith csub)) data model_data

/-- `sigma = np.sqrt(1 / weight); sigma *= sigma_rescale`, over [pol][sample]. -/
def sigma_of (sqrt : K → K) (sigma_rescale : K) (weight : List (List K)) :
    List (List K) :=
  weight.map (fun ws => ws.map (fun w => sqrt (1 / w) * sigma_rescale))

/-- `scatter = residuals / sigma[:, np.newaxis, :]`: `sigma` is broadcast
across the channel axis, so entry `[p][c][s]` is divided by `sigma[p][s]`. -/
def scatter_of (residuals : List (List (List (K × K)))) (sigma : List (List K)) :
    List (List (List (K × K))) :=
  List.zipWith (fun res sig => res.map (fun chanRow => List.zipWith cdivR chanRow sig))
    residuals sigma

end Arith

section Mask

variable {α : Type}

/-- One row of numpy boolean-mask indexing `arr[~flag]`: keep the entries
whose flag is `false`. -/
def rowMask (xs : List α) (fs : List Bool) : List α :=
  (List.zipWith (fun x f => if f then none else some x) xs fs).filterMap id

/-- numpy boolean-mask indexing `arr[~flag]` of a 2-D array by a 2-D flag
array: row-major traversal keeping the entries whose flag is `false`,
returning a 1-D sequence. -/
def applyMask (xss : List (List α)) (fss : List (List Bool)) : List α :=
  (List.zipWith rowMask xss fss).flatten

/-- The per-entry keep/drop decision of boolean-mask indexing, on an
entry paired with its flag. -/
def maskFn (p : α × Bool) : Option α := if p.2 then none else some p.1

end Mask

/-- Errors surfaced by `get_scatter_datadescid`: the `assert` on an empty
`MODEL_DATA` column, and the failure of the `scatter_XX, scatter_YY = scatter`
destructuring when the polarization axis does not have exactly two entries. -/
inductive ScatterError where
  | missingModelData
  | shapeMismatch
deriving DecidableEq

/-- Result for one polarization: 1-dimensional if flags were applied,
the original [channel][sample] shape otherwise. -/
inductive PolScatter (K : Type) where
  | flat (entries : List (K × K))
  | grid (entries : List (List (K × K)))

/-- The columns fetched for one spectral window by
`ms.getdata(["DATA", "MODEL_DATA", "WEIGHT", "UVW", "ANTENNA1", "ANTENNA2",
"FLAG"])`, restricted to the four columns the scatter computation reads. -/
structure MSQuery (K : Type) where
  data : List (List (List (K × K)))
  model_data : List (List (List (K × K)))
  weight : List (List K)
  flag : List (List (List Bool))

section Scatter

variable {K : Type} [Field K]

/-- `get_scatter_datadescid(datadescid, sigma_rescale, apply_flags)`, with the
store access abstracted into the already-fetched query `q` for the window. -/
def get_scatter_datadescid (sqrt : K → K) (q : MSQuery K) (sigma_rescale : K)
    (apply_flags : Bool) : Except ScatterError (PolScatter K × PolScatter K) :=
  if q.model_data.length = 0 then
    .error .missingModelData
  else
    match scatter_of (residuals_of q.data q.model_data)
        (sigma_of sqrt sigma_rescale q.weight), q.flag with
    | [scatter_XX, scatter_YY], [flag_XX, flag_YY] =>
        if apply_flags then
          .ok (.flat (applyMask scatter_XX flag_XX),
               .flat (applyMask scatter_YY flag_YY))
        else
          .ok (.grid scatter_XX, .grid scatter_YY)
    | _, _ => .error .shapeMismatch

/-- `gaussian(x) = 1 / np.sqrt(2 * np.pi) * np.exp(-0.5 * x ** 2)`. -/
def gaussian (sqrt exp : K → K) (pi : K) (x : K) : K :=
  1 / sqrt (2 * pi) * exp (-(1 / 2) * x ^ 2)

/-- `.flatten()` on a per-polarization result: identity on a 1-D array,
row-major flattening on a 2-D array. -/
def flattenPol : PolScatter K → List (K × K)
  | .flat xs => xs
  | .grid g => g.flatten

/-- The data handed to matplotlib by `scatter_hist`: the two sequences whose
real and imaginary parts are histogrammed, and the log-stretch option. -/
structure HistFig (K : Type) where
  hist_XX : List (K × K)
  hist_YY : List (K × K)
  log : Bool

/-- `scatter_hist(scatter_XX, scatter_YY, log)`, reduced to the data it
renders. -/
def scatter_hist (scatter_XX scatter_YY : List (K × K)) (log : Bool) : HistFig K :=
  ⟨scatter_XX, scatter_YY, log⟩

/-- A `scatter_hist` figure after `fig.suptitle("DATA_DESC_ID: ...")`. -/
structure TitledFig (K : Type) extends HistFig K where
  suptitle : ℕ

/-- `plot_histogram_datadescid(datadescid, sigma_rescale, log, apply_flags)`:
compute the scatter, flatten both polarizations unconditionally, render, and
title with the `DATA_DESC_ID`.  A failing `assert` propagates. -/
def plot_histogram_datadescid (sqrt : K → K) (store : ℕ → MSQuery K)
    (datadescid : ℕ) (sigma_rescale : K) (log apply_flags : Bool) :
    Except ScatterError (TitledFig K) :=
  match get_scatter_datadescid sqrt (store datadescid) sigma_rescale apply_flags with
  | .error e => .error e
  | .ok (scatter_XX, scatter_YY) =>
      .ok { toHistFig := scatter_hist (flattenPol scatter_XX)
              (flattenPol scatter_YY) log,
            suptitle := datadescid }

end Scatter

section Store

/-- The external-store operations the script performs (`ms` and `tb` tools). -/
inductive StoreOp where
  | openConn
  | selectinit (datadescid : ℕ)
  | selectReset
  | getdata
  | getcol
  | closeConn

/-- Observable state of the external store connection: whether a connection
is open, and the active window selection. -/
structure StoreState where
  connOpen : Bool
  selection : Option ℕ

/-- Effect of one store operation on the connection state. -/
def stepOp (s : StoreState) : StoreOp → StoreState
  | .openConn => { s with connOpen := true }
  | .selectinit d => { s with selection := some d }
  | .selectReset => { s with selection := none }
  | .getdata => s
  | .getcol => s
  | .closeConn => { s with connOpen := false }

/-- Run a sequence of store operations from a given state. -/
def runOps (s : StoreState) (ops : List StoreOp) : StoreState := ops.foldl stepOp s

/-- The store operations `get_scatter_datadescid` performs, in program order:
`ms.open`, `ms.selectinit(datadescid)`, `ms.getdata(...)`,
`ms.selectinit(reset=True)`, `ms.close` — all before the `assert` and the
arithmetic. -/
def get_scatter_ops (datadescid : ℕ) : List StoreOp :=
  [.openConn, .selectinit datadescid, .getdata, .selectReset, .closeConn]

/-- `get_scatter_datadescid` with its store side effects: the final store
state reached by its operation sequence, paired with its result. -/
def get_scatter_run {K : Type} [Field K] (sqrt : K → K) (store : ℕ → MSQuery K)
    (datadescid : ℕ) (sigma_rescale : K) (apply_flags : Bool) :
    StoreState × Except ScatterError (PolScatter K × PolScatter K) :=
  (runOps ⟨false, none⟩ (get_scatter_ops datadescid),
   get_scatter_datadescid sqrt (store datadescid) sigma_rescale apply_flags)

/-- The store operations of the direct-table-read probe
(`try: tb.open; tb.getcol×3 / except RuntimeError / finally: tb.close`):
whether or not a `getcol` raises, the `finally` block closes the table. -/
def tb_probe_ops (raisesRuntimeError : Bool) : List StoreOp :=
  if raisesRuntimeError then [.openConn, .getcol, .closeConn]
  else [.openConn, .getcol, .getcol, .getcol, .closeConn]

end Store

/-! ### Concrete windows used as test inputs -/

/-- The synthetic window of the end-to-end scenario: 2 polarizations, 1
channel, 3 samples, `weight = [[1,1,1],[4,4,4]]`,
`data - model_data = [[2,0,-2],[4,0,-4]]`, no flags. -/
def exampleQuery : MSQuery ℝ where
  data := [[[(2, 0), (0, 0), (-2, 0)]], [[(4, 0), (0, 0), (-4, 0)]]]
  model_data := [[[(0, 0), (0, 0), (0, 0)]], [[(0, 0), (0, 0), (0, 0)]]]
  weight := [[1, 1, 1], [4, 4, 4]]
  flag := [[[false, false, false]], [[false, false, false]]]

/-- A minimal well-shaped window over ℝ: 2 polarizations, 1 channel, 1 sample,
unit weight, residual 1, unflagged. -/
def unitQuery : MSQuery ℝ where
  data := [[[(1, 0)]], [[(1, 0)]]]
  model_data := [[[(0, 0)]], [[(0, 0)]]]
  weight := [[1], [1]]
  flag := [[[false]], [[false]]]

/-- The same window with every sample flagged. -/
def flaggedQuery : MSQuery ℝ where
  data := [[[(1, 0)]], [[(1, 0)]]]
  model_data := [[[(0, 0)]], [[(0, 0)]]]
  weight := [[1], [1]]
  flag := [[[true]], [[true]]]

/-! ### Lemmas about boolean-mask indexing -/

section MaskLemmas

variable {α : Type}

theorem rowMask_cons (x : α) (xs : List α) (f : Bool) (fs : List Bool) :
    rowMask (x :: xs) (f :: fs) = if f then rowMask xs fs else x :: rowMask xs fs := by
  cases f <;> simp [rowMask]

theorem rowMask_eq_zip_filterMap (xs : List α) (fs : List Bool) :
    rowMask xs fs = (xs.zip fs).filterMap maskFn := by
  induction xs generalizing fs with
  | nil => simp [rowMask]
  | cons x xs ih =>
    cases fs with
    | nil => simp [rowMask]
    | cons f fs => cases f <;> simp [rowMask_cons, maskFn, ih]

theorem rowMask_all_true (xs : List α) (fs : List Bool)
    (h : ∀ b ∈ fs, b = true) : rowMask xs fs = [] := by
  induction xs generalizing fs with
  | nil => simp [rowMask]
  | cons x xs ih =>
    cases fs with
    | nil => simp [rowMask]
    | cons f fs =>
      have hf : f = true := h f (by simp)
      subst hf
      rw [rowMask_cons, if_pos rfl]
      exact ih fs (fun b hb => h b (by simp [hb]))

theorem rowMask_all_false (xs : List α) (fs : List Bool)
    (hlen : xs.length = fs.length) (h : ∀ b ∈ fs, b = false) :
    rowMask xs fs = xs := by
  induction xs generalizing fs with
  | nil => simp [rowMask]
  | cons x xs ih =>
    cases fs with
    | nil => simp at hlen
    | cons f fs =>
      have hf : f = false := h f (by simp)
      subst hf
      rw [rowMask_cons, if_neg (by simp)]
      exact congrArg (x :: ·) (ih fs (by simpa using hlen) (fun b hb => h b (by simp [hb])))

theorem applyMask_cons (xs : List α) (xss : List (List α)) (fs : List Bool)
    (fss : List (List Bool)) :
    applyMask (xs :: xss) (fs :: fss) = rowMask xs fs ++ applyMask xss fss := by
  simp [applyMask]

theorem applyMask_eq_zip_filterMap (xss : List (List α)) (fss : List (List Bool))
    (h : List.Forall₂ (fun a b => a.length = b.length) xss fss) :
    applyMask xss fss = (xss.flatten.zip fss.flatten).filterMap maskFn := by
  induction h with
  | nil => simp [applyMask]
  | cons hxf hrest ih =>
    rw [applyMask_cons, List.flatten_cons, List.flatten_cons, List.zip_append hxf,
      List.filterMap_append, rowMask_eq_zip_filterMap, ih]

theorem applyMask_all_true (xss : List (List α)) (fss : List (List Bool))
    (h : ∀ row ∈ fss, ∀ b ∈ row, b = true) : applyMask xss fss = [] := by
  induction xss generalizing fss with
  | nil => simp [applyMask]
  | cons xs xss ih =>
    cases fss with
    | nil => simp [applyMask]
    | cons fs fss =>
      rw [applyMask_cons, rowMask_all_true xs fs (fun b hb => h fs (by simp) b hb)]
      exact ih fss (fun row hr => h row (by simp [hr]))

theorem applyMask_all_false (xss : List (List α)) (fss : List (List Bool))
    (h : List.Forall₂ (fun a b => a.length = b.length) xss fss)
    (hfalse : ∀ row ∈ fss, ∀ b ∈ row, b = false) :
    applyMask xss fss = xss.flatten := by
  induction xss generalizing fss with
  | nil =>
    cases h
    simp [applyMask]
  | cons xs xss ih =>
    cases h with
    | cons hxf hrest =>
      rw [applyMask_cons, rowMask_all_false _ _ hxf (fun b hb => hfalse _ (by simp) b hb),
        List.flatten_cons, ih _ hrest (fun row hr => hfalse row (by simp [hr]))]

theorem length_filterMap_zip_maskFn (xs : List α) (fs : List Bool)
    (h : xs.length = fs.length) :
    ((xs.zip fs).filterMap maskFn).length = fs.countP (fun b => !b) := by
  induction xs generalizing fs with
  | nil =>
    cases fs with
    | nil => simp
    | cons f fs => simp at h
  | cons x xs ih =>
    cases fs with
    | nil => simp at h
    | cons f fs =>
      have h' : xs.length = fs.length := by simpa using h
      cases f <;> simp [maskFn, List.countP_cons, ih _ h']

end MaskLemmas

/-! ### Reduction of `get_scatter_datadescid` on well-shaped inputs -/

theorem get_scatter_eq {K : Type} [Field K] (sqrt : K → K) (q : MSQuery K) (r : K)
    (sXX sYY : List (List (K × K))) (fXX fYY : List (List Bool))
    (hm : q.model_data.length ≠ 0)
    (hsc : scatter_of (residuals_of q.data q.model_data) (sigma_of sqrt r q.weight) =
      [sXX, sYY])
    (hf : q.flag = [fXX, fYY]) :
    get_scatter_datadescid sqrt q r true =
      .ok (.flat (applyMask sXX fXX), .flat (applyMask sYY fYY)) ∧
    get_scatter_datadescid sqrt q r false = .ok (.grid sXX, .grid sYY) := by
  refine ⟨?_, ?_⟩ <;>
    (unfold get_scatter_datadescid; rw [hsc, hf, if_neg hm]; rfl)

/-! ### Concrete windows used as test inputs -/

theorem sqrt_quarter : Real.sqrt (1 / 4) = 1 / 2 := by
  have h : (1 / 4 : ℝ) = (1 / 2) ^ 2 := by norm_num
  rw [h, Real.sqrt_sq (by norm_num : (0 : ℝ) ≤ 1 / 2)]

theorem sqrt_four : Real.sqrt 4 = 2 := by
  have h : (4 : ℝ) = 2 ^ 2 := by norm_num
  rw [h, Real.sqrt_sq (by norm_num : (0 : ℝ) ≤ 2)]

theorem exampleQuery_scatter :
    scatter_of (residuals_of exampleQuery.data exampleQuery.model_data)
      (sigma_of Real.sqrt 1 exampleQuery.weight) =
    [[[(2, 0), (0, 0), (-2, 0)]], [[(8, 0), (0, 0), (-8, 0)]]] := by
  simp [exampleQuery, scatter_of, residuals_of, sigma_of, csub, cdivR, sqrt_quarter]
  norm_num [Real.sqrt_one, sqrt_four]

theorem unitQuery_scatter :
    scatter_of (residuals_of unitQuery.data unitQuery.model_data)
      (sigma_of Real.sqrt 1 unitQuery.weight) = [[[(1, 0)]], [[(1, 0)]]] := by
  norm_num [unitQuery, scatter_of, residuals_of, sigma_of, csub, cdivR, Real.sqrt_one]

theorem flaggedQuery_scatter :
    scatter_of (residuals_of flaggedQuery.data flaggedQuery.model_data)
      (sigma_of Real.sqrt 1 flaggedQuery.weight) = [[[(1, 0)]], [[(1, 0)]]] := by
  norm_num [flaggedQuery, scatter_of, residuals_of, sigma_of, csub, cdivR, Real.sqrt_one]

/-! ### Claim theorems -/

/-- C1 (counterexample): on the synthetic window with 2 polarizations, 1
channel, 3 samples, `weight = [[1,1,1],[4,4,4]]`,
`data - model_data = [[2,0,-2],[4,0,-4]]` and `rescale = 1`, the scatter
returned by `get_scatter_datadescid` is NOT `[[2,0,-2],[2,0,-2]]`, neither in
the unflagged 2-D form nor in the flattened form. -/
theorem c1_counterexample :
    get_scatter_datadescid Real.sqrt exampleQuery 1 false ≠
      .ok (.grid [[(2, 0), (0, 0), (-2, 0)]], .grid [[(2, 0), (0, 0), (-2, 0)]]) ∧
    get_scatter_datadescid Real.sqrt exampleQuery 1 true ≠
      .ok (.flat [(2, 0), (0, 0), (-2, 0)], .flat [(2, 0), (0, 0), (-2, 0)]) := by
  have h := get_scatter_eq Real.sqrt exampleQuery 1
    [[(2, 0), (0, 0), (-2, 0)]] [[(8, 0), (0, 0), (-8, 0)]]
    [[false, false, false]] [[false, false, false]]
    (by simp [exampleQuery]) exampleQuery_scatter rfl
  constructor
  · rw [h.2]
    norm_num
  · rw [h.1]
    norm_num [applyMask, rowMask, List.filterMap_cons]

/-- C1 (amended): on that synthetic window, `sigma` for polarization 1 is 1
and for polarization 2 is 1/2 (not 2), and `get_scatter_datadescid` returns
`scatter = [[2,0,-2],[8,0,-8]]` for the two polarizations. -/
theorem c1_amended_scatter :
    sigma_of Real.sqrt 1 exampleQuery.weight = [[1, 1, 1], [1 / 2, 1 / 2, 1 / 2]] ∧
    get_scatter_datadescid Real.sqrt exampleQuery 1 false =
      .ok (.grid [[(2, 0), (0, 0), (-2, 0)]], .grid [[(8, 0), (0, 0), (-8, 0)]]) := by
  refine ⟨?_, (get_scatter_eq Real.sqrt exampleQuery 1
    [[(2, 0), (0, 0), (-2, 0)]] [[(8, 0), (0, 0), (-8, 0)]]
    [[false, false, false]] [[false, false, false]]
    (by simp [exampleQuery]) exampleQuery_scatter rfl).2⟩
  simp [sigma_of, exampleQuery, sqrt_quarter]
  norm_num [Real.sqrt_one, sqrt_four]

/-- C2: whenever the fetched `MODEL_DATA` array has length zero,
`get_scatter_datadescid` fails with the `MissingModelData` error (the
`assert`) and does not return a result, whatever the other inputs are. -/
theorem c2_missing_model_data {K : Type} [Field K] (sqrt : K → K) (q : MSQuery K)
    (sigma_rescale : K) (apply_flags : Bool) (h : q.model_data.length = 0) :
    get_scatter_datadescid sqrt q sigma_rescale apply_flags =
      .error .missingModelData ∧
    ∀ res, get_scatter_datadescid sqrt q sigma_rescale apply_flags ≠ .ok res := by
  have hmain : get_scatter_datadescid sqrt q sigma_rescale apply_flags =
      .error .missingModelData := by
    unfold get_scatter_datadescid
    rw [if_pos h]
  exact ⟨hmain, fun res hres => by rw [hmain] at hres; exact Except.noConfusion hres⟩

/-- Witness for C2 at a concrete window with an empty `MODEL_DATA` column. -/
theorem c2_missing_model_data_witness :
    get_scatter_datadescid Real.sqrt (⟨[], [], [], []⟩ : MSQuery ℝ) 1 true =
      .error .missingModelData :=
  (c2_missing_model_data Real.sqrt ⟨[], [], [], []⟩ 1 true rfl).1

/-- C7: `gaussian` evaluates the standard normal density
`(1/sqrt(2*pi)) * exp(-x^2/2)` at every real `x`; in particular
`gaussian 0 = 1/sqrt(2*pi)`. -/
theorem c7_gaussian (x : ℝ) :
    gaussian Real.sqrt Real.exp Real.pi x =
      1 / Real.sqrt (2 * Real.pi) * Real.exp (-x ^ 2 / 2) ∧
    gaussian Real.sqrt Real.exp Real.pi 0 = 1 / Real.sqrt (2 * Real.pi) := by
  constructor
  · have h : (-(1 / 2) * x ^ 2 : ℝ) = -x ^ 2 / 2 := by ring
    rw [gaussian, h]
  · simp [gaussian]

/-- C8: `plot_histogram_datadescid` forwards the window selector, rescale and
flag options to `get_scatter_datadescid`, flattens both polarization results
unconditionally (whatever `apply_flags` was), hands them to `scatter_hist`,
and titles the figure with the window selector; an error propagates. -/
theorem c8_plot_histogram {K : Type} [Field K] (sqrt : K → K) (store : ℕ → MSQuery K)
    (datadescid : ℕ) (sigma_rescale : K) (log apply_flags : Bool) :
    (∀ pXX pYY,
      get_scatter_datadescid sqrt (store datadescid) sigma_rescale apply_flags =
        .ok (pXX, pYY) →
      plot_histogram_datadescid sqrt store datadescid sigma_rescale log apply_flags =
        .ok { toHistFig := scatter_hist (flattenPol pXX) (flattenPol pYY) log,
              suptitle := datadescid }) ∧
    (∀ e,
      get_scatter_datadescid sqrt (store datadescid) sigma_rescale apply_flags =
        .error e →
      plot_histogram_datadescid sqrt store datadescid sigma_rescale log apply_flags =
        .error e) := by
  constructor
  · intro pXX pYY h
    unfold plot_histogram_datadescid
    rw [h]
  · intro e h
    unfold plot_histogram_datadescid
    rw [h]

/-- Witness for C8 on the unit window: the flattened scatter of both
polarizations reaches the renderer and the title is the selector. -/
theorem c8_plot_histogram_witness :
    plot_histogram_datadescid Real.sqrt (fun _ => unitQuery) 7 1 false false =
      .ok { toHistFig := scatter_hist [(1, 0)] [(1, 0)] false, suptitle := 7 } := by
  have h := (c8_plot_histogram Real.sqrt (fun _ => unitQuery) 7 1 false false).1
    (.grid [[(1, 0)]]) (.grid [[(1, 0)]])
    (get_scatter_eq Real.sqrt unitQuery 1 [[(1, 0)]] [[(1, 0)]] [[false]] [[false]]
      (by simp [unitQuery]) unitQuery_scatter rfl).2
  simpa [flattenPol] using h

/-- C9: the store connection and the active window selection are released on
every execution path: `get_scatter_datadescid`'s store-operation sequence
closes the connection and resets the selection before the result (ok or
error) is produced, and the direct-table-read probe closes the table both
when the uniform read raises and when it succeeds. -/
theorem c9_store_discipline {K : Type} [Field K] (sqrt : K → K) (store : ℕ → MSQuery K)
    (datadescid : ℕ) (sigma_rescale : K) (apply_flags raisesRuntimeError : Bool) :
    (get_scatter_run sqrt store datadescid sigma_rescale apply_flags).1.connOpen = false ∧
    (get_scatter_run sqrt store datadescid sigma_rescale apply_flags).1.selection = none ∧
    (runOps ⟨false, none⟩ (tb_probe_ops raisesRuntimeError)).connOpen = false := by
  refine ⟨rfl, rfl, ?_⟩
  cases raisesRuntimeError <;> rfl

theorem flatten_length_eq {α β : Type} (xss : List (List α)) (fss : List (List β))
    (h : List.Forall₂ (fun a b => a.length = b.length) xss fss) :
    xss.flatten.length = fss.flatten.length := by
  induction h with
  | nil => rfl
  | cons hab hrest ih => simp [List.flatten_cons, hab, ih]

/-- C5: on a window whose flag arrays are all-false (and shaped like the
scatter), the `apply_flags = true` result of `get_scatter_datadescid` is, for
each polarization, exactly the flattening of its `apply_flags = false`
result. -/
theorem c5_no_flags_flatten (q : MSQuery ℝ) (r : ℝ)
    (sXX sYY : List (List (ℝ × ℝ))) (fXX fYY : List (List Bool))
    (hm : q.model_data.length ≠ 0)
    (hsc : scatter_of (residuals_of q.data q.model_data)
      (sigma_of Real.sqrt r q.weight) = [sXX, sYY])
    (hf : q.flag = [fXX, fYY])
    (hallXX : ∀ row ∈ fXX, ∀ b ∈ row, b = false)
    (hallYY : ∀ row ∈ fYY, ∀ b ∈ row, b = false)
    (hlenXX : List.Forall₂ (fun a b => a.length = b.length) sXX fXX)
    (hlenYY : List.Forall₂ (fun a b => a.length = b.length) sYY fYY) :
    get_scatter_datadescid Real.sqrt q r false = .ok (.grid sXX, .grid sYY) ∧
    get_scatter_datadescid Real.sqrt q r true =
      .ok (.flat sXX.flatten, .flat sYY.flatten) := by
  have h := get_scatter_eq Real.sqrt q r sXX sYY fXX fYY hm hsc hf
  refine ⟨h.2, ?_⟩
  rw [h.1, applyMask_all_false sXX fXX hlenXX hallXX,
    applyMask_all_false sYY fYY hlenYY hallYY]

/-- Witness for C5 on the unit window: with all-false flags the flagged
result is the flattening of the unflagged one. -/
theorem c5_no_flags_flatten_witness :
    get_scatter_datadescid Real.sqrt unitQuery 1 false =
      .ok (.grid [[(1, 0)]], .grid [[(1, 0)]]) ∧
    get_scatter_datadescid Real.sqrt unitQuery 1 true =
      .ok (.flat [(1, 0)], .flat [(1, 0)]) := by
  have h := c5_no_flags_flatten unitQuery 1 [[(1, 0)]] [[(1, 0)]] [[false]] [[false]]
    (by simp [unitQuery]) unitQuery_scatter rfl
    (by simp) (by simp) (by simp) (by simp)
  simpa using h

/-- C6: with `apply_flags = false` the scatter is returned in its original
[channel, sample] shape, unfiltered; with `apply_flags = true` a polarization
whose flag array is all-true yields an empty sequence. -/
theorem c6_all_true_flags (q : MSQuery ℝ) (r : ℝ)
    (sXX sYY : List (List (ℝ × ℝ))) (fXX fYY : List (List Bool))
    (hm : q.model_data.length ≠ 0)
    (hsc : scatter_of (residuals_of q.data q.model_data)
      (sigma_of Real.sqrt r q.weight) = [sXX, sYY])
    (hf : q.flag = [fXX, fYY]) :
    get_scatter_datadescid Real.sqrt q r false = .ok (.grid sXX, .grid sYY) ∧
    ((∀ row ∈ fXX, ∀ b ∈ row, b = true) →
      get_scatter_datadescid Real.sqrt q r true =
        .ok (.flat [], .flat (applyMask sYY fYY))) ∧
    ((∀ row ∈ fYY, ∀ b ∈ row, b = true) →
      get_scatter_datadescid Real.sqrt q r true =
        .ok (.flat (applyMask sXX fXX), .flat [])) := by
  have h := get_scatter_eq Real.sqrt q r sXX sYY fXX fYY hm hsc hf
  refine ⟨h.2, fun hx => ?_, fun hy => ?_⟩
  · rw [h.1, applyMask_all_true sXX fXX hx]
  · rw [h.1, applyMask_all_true sYY fYY hy]

/-- Witness for C6 on the fully flagged unit window: both polarizations come
back empty. -/
theorem c6_all_true_flags_witness :
    get_scatter_datadescid Real.sqrt flaggedQuery 1 true = .ok (.flat [], .flat []) := by
  have h := (c6_all_true_flags flaggedQuery 1 [[(1, 0)]] [[(1, 0)]] [[true]] [[true]]
    (by simp [flaggedQuery]) flaggedQuery_scatter rfl).2.1 (by simp)
  simpa [applyMask, rowMask] using h

/-- C10 (implicit): with `apply_flags = true` each polarization's result is
the row-major (channel-major, then sample) traversal of the scatter keeping
exactly the entries whose flag is false, and its length is the number of
false entries of that polarization's flag array. -/
theorem c10_mask_order (q : MSQuery ℝ) (r : ℝ)
    (sXX sYY : List (List (ℝ × ℝ))) (fXX fYY : List (List Bool))
    (hm : q.model_data.length ≠ 0)
    (hsc : scatter_of (residuals_of q.data q.model_data)
      (sigma_of Real.sqrt r q.weight) = [sXX, sYY])
    (hf : q.flag = [fXX, fYY])
    (hlenXX : List.Forall₂ (fun a b => a.length = b.length) sXX fXX)
    (hlenYY : List.Forall₂ (fun a b => a.length = b.length) sYY fYY) :
    get_scatter_datadescid Real.sqrt q r true =
      .ok (.flat ((sXX.flatten.zip fXX.flatten).filterMap maskFn),
           .flat ((sYY.flatten.zip fYY.flatten).filterMap maskFn)) ∧
    ((sXX.flatten.zip fXX.flatten).filterMap maskFn).length =
      fXX.flatten.countP (fun b => !b) ∧
    ((sYY.flatten.zip fYY.flatten).filterMap maskFn).length =
      fYY.flatten.countP (fun b => !b) := by
  have h := get_scatter_eq Real.sqrt q r sXX sYY fXX fYY hm hsc hf
  refine ⟨?_, length_filterMap_zip_maskFn _ _ (flatten_length_eq _ _ hlenXX),
    length_filterMap_zip_maskFn _ _ (flatten_length_eq _ _ hlenYY)⟩
  rw [h.1, applyMask_eq_zip_filterMap sXX fXX hlenXX,
    applyMask_eq_zip_filterMap sYY fYY hlenYY]

theorem scatter_of_entry {K : Type} [Field K] [Inhabited K]
    (R : List (List (List (K × K)))) (W : List (List K)) (p c s : ℕ)
    (hp : p < (scatter_of R W).length)
    (hc : c < ((scatter_of R W)[p]!).length)
    (hs : s < (((scatter_of R W)[p]!)[c]!).length) :
    p < R.length ∧ p < W.length ∧ c < (R[p]!).length ∧ s < ((R[p]!)[c]!).length ∧
    s < (W[p]!).length ∧
    (((scatter_of R W)[p]!)[c]!)[s]! = cdivR (((R[p]!)[c]!)[s]!) ((W[p]!)[s]!) := by
  have hpRW : p < R.length ∧ p < W.length := by
    simpa only [scatter_of, List.length_zipWith, lt_inf_iff] using hp
  obtain ⟨hpR, hpW⟩ := hpRW
  have hgp : (scatter_of R W)[p]! =
      (R[p]!).map (fun row => List.zipWith cdivR row (W[p]!)) := by
    rw [getElem!_pos (scatter_of R W) p hp, getElem!_pos R p hpR, getElem!_pos W p hpW]
    simp only [scatter_of]
    rw [List.getElem_zipWith]
  rw [hgp] at hc hs
  have hcR : c < (R[p]!).length := by simpa using hc
  have hgc : ((R[p]!).map (fun row => List.zipWith cdivR row (W[p]!)))[c]! =
      List.zipWith cdivR ((R[p]!)[c]!) (W[p]!) := by
    rw [getElem!_pos ((R[p]!).map (fun row => List.zipWith cdivR row (W[p]!))) c hc,
      getElem!_pos (R[p]!) c hcR, List.getElem_map]
  rw [hgc] at hs
  have hsRW : s < ((R[p]!)[c]!).length ∧ s < (W[p]!).length := by
    simpa only [List.length_zipWith, lt_inf_iff] using hs
  refine ⟨hpR, hpW, hcR, hsRW.1, hsRW.2, ?_⟩
  rw [hgp, hgc, getElem!_pos (List.zipWith cdivR ((R[p]!)[c]!) (W[p]!)) s hs,
    getElem!_pos ((R[p]!)[c]!) s hsRW.1, getElem!_pos (W[p]!) s hsRW.2,
    List.getElem_zipWith]

theorem sigma_of_entry {K : Type} [Field K] [Inhabited K] (sqrt : K → K) (rescale : K)
    (weight : List (List K)) (p s : ℕ)
    (hp : p < weight.length) (hs : s < (weight[p]!).length) :
    ((sigma_of sqrt rescale weight)[p]!)[s]! = sqrt (1 / (weight[p]!)[s]!) * rescale := by
  have hp' : p < (sigma_of sqrt rescale weight).length := by
    simpa [sigma_of] using hp
  rw [getElem!_pos weight p hp] at hs ⊢
  rw [getElem!_pos (sigma_of sqrt rescale weight) p hp']
  simp only [sigma_of]
  rw [List.getElem_map]
  have hs' : s < ((weight[p]).map (fun w => sqrt (1 / w) * rescale)).length := by
    simpa using hs
  rw [getElem!_pos ((weight[p]).map (fun w => sqrt (1 / w) * rescale)) s hs',
    getElem!_pos (weight[p]) s hs, List.getElem_map]

theorem sigma_of_length {K : Type} [Field K] (sqrt : K → K) (rescale : K)
    (weight : List (List K)) :
    (sigma_of sqrt rescale weight).length = weight.length := by
  simp [sigma_of]

theorem sigma_of_row_length {K : Type} [Field K] [Inhabited K] (sqrt : K → K)
    (rescale : K) (weight : List (List K)) (p : ℕ) (hp : p < weight.length) :
    ((sigma_of sqrt rescale weight)[p]!).length = (weight[p]!).length := by
  have hp' : p < (sigma_of sqrt rescale weight).length := by
    simpa [sigma_of] using hp
  rw [getElem!_pos (sigma_of sqrt rescale weight) p hp', getElem!_pos weight p hp]
  simp [sigma_of]

/-- C3: with strictly positive weights and `rescale = 1`, the entries
computed by `get_scatter_datadescid` satisfy `sigma = sqrt(1/weight)` and
`scatter = (data - model_data) / sigma` (with `sigma` broadcast across the
channel axis), and hence `scatter * sigma` recovers `data - model_data`
exactly. -/
theorem c3_round_trip (data model_data : List (List (List (ℝ × ℝ))))
    (weight : List (List ℝ))
    (hw : ∀ ws ∈ weight, ∀ w ∈ ws, 0 < w) (p c s : ℕ)
    (hp : p < (scatter_of (residuals_of data model_data)
      (sigma_of Real.sqrt 1 weight)).length)
    (hc : c < ((scatter_of (residuals_of data model_data)
      (sigma_of Real.sqrt 1 weight))[p]!).length)
    (hs : s < (((scatter_of (residuals_of data model_data)
      (sigma_of Real.sqrt 1 weight))[p]!)[c]!).length) :
    ((sigma_of Real.sqrt 1 weight)[p]!)[s]! = Real.sqrt (1 / (weight[p]!)[s]!) ∧
    (((scatter_of (residuals_of data model_data)
        (sigma_of Real.sqrt 1 weight))[p]!)[c]!)[s]! =
      cdivR ((((residuals_of data model_data)[p]!)[c]!)[s]!)
        (((sigma_of Real.sqrt 1 weight)[p]!)[s]!) ∧
    cmulR ((((scatter_of (residuals_of data model_data)
        (sigma_of Real.sqrt 1 weight))[p]!)[c]!)[s]!)
        (((sigma_of Real.sqrt 1 weight)[p]!)[s]!) =
      (((residuals_of data model_data)[p]!)[c]!)[s]! := by
  obtain ⟨hpR, hpW, hcR, hsR, hsW, hentry⟩ :=
    scatter_of_entry (residuals_of data model_data) (sigma_of Real.sqrt 1 weight)
      p c s hp hc hs
  have hpw : p < weight.length := by
    rw [← sigma_of_length Real.sqrt 1 weight]
    exact hpW
  have hsw : s < (weight[p]!).length := by
    rw [← sigma_of_row_length Real.sqrt 1 weight p hpw]
    exact hsW
  have hσ := sigma_of_entry Real.sqrt 1 weight p s hpw hsw
  have hwpos : 0 < (weight[p]!)[s]! := by
    refine hw (weight[p]!) ?_ ((weight[p]!)[s]!) ?_
    · rw [getElem!_pos weight p hpw]
      exact List.getElem_mem hpw
    · rw [getElem!_pos (weight[p]!) s hsw]
      exact List.getElem_mem hsw
  have hσne : ((sigma_of Real.sqrt 1 weight)[p]!)[s]! ≠ 0 := by
    rw [hσ, mul_one]
    exact ne_of_gt (Real.sqrt_pos.mpr (by positivity))
  refine ⟨by rw [hσ, mul_one], hentry, ?_⟩
  rw [hentry]
  simp [cmulR, cdivR, div_mul_cancel₀ _ hσne]

/-- Witness for C3 at a concrete window entry. -/
theorem c3_round_trip_witness :
    cmulR ((((scatter_of (residuals_of [[[((3 : ℝ), (4 : ℝ))]]] [[[(1, 1)]]])
        (sigma_of Real.sqrt 1 [[1]]))[0]!)[0]!)[0]!)
        (((sigma_of Real.sqrt 1 [[(1 : ℝ)]])[0]!)[0]!) =
      (((residuals_of [[[((3 : ℝ), (4 : ℝ))]]] [[[(1, 1)]]])[0]!)[0]!)[0]! :=
  (c3_round_trip [[[(3, 4)]]] [[[(1, 1)]]] [[1]] (by simp) 0 0 0
    (by simp [scatter_of, residuals_of, sigma_of])
    (by simp [scatter_of, residuals_of, sigma_of, csub, cdivR])
    (by simp [scatter_of, residuals_of, sigma_of, csub, cdivR])).2.2

theorem cdivR_mul {K : Type} [Field K] (z : K × K) (s c : K) :
    cdivR z (s * c) = cdivR (cdivR z s) c := by
  simp [cdivR, div_div]

theorem sigma_of_mul {K : Type} [Field K] (sqrt : K → K) (r c : K)
    (weight : List (List K)) :
    sigma_of sqrt (r * c) weight =
      (sigma_of sqrt r weight).map (fun ws => ws.map (· * c)) := by
  simp only [sigma_of]
  rw [List.map_map]
  apply List.map_congr_left
  intro ws _
  simp only [Function.comp]
  rw [List.map_map]
  apply List.map_congr_left
  intro w _
  simp only [Function.comp]
  rw [mul_assoc]

theorem scatter_of_map_mul {K : Type} [Field K]
    (R : List (List (List (K × K)))) (W : List (List K)) (c : K) :
    scatter_of R (W.map (fun ws => ws.map (· * c))) =
      (scatter_of R W).map
        (fun pol => pol.map (fun row => row.map (fun z => cdivR z c))) := by
  simp only [scatter_of, List.zipWith_map_right, List.map_zipWith]
  congr 1
  funext res sig
  rw [List.map_map]
  apply List.map_congr_left
  intro row _
  simp only [Function.comp]
  rw [List.map_zipWith]
  congr 1
  funext z s
  rw [cdivR_mul]

/-- C4: for fixed fetched columns with strictly positive weights, scaling the
`rescale` argument by any factor `c` (in particular doubling it) multiplies
every `sigma` entry by `c` and divides every `scatter` entry by `c`. -/
theorem c4_rescale_linear (weight : List (List ℝ))
    (residuals : List (List (List (ℝ × ℝ)))) (r : ℝ)
    (hw : ∀ ws ∈ weight, ∀ w ∈ ws, 0 < w) (c : ℝ) :
    sigma_of Real.sqrt (r * c) weight =
      (sigma_of Real.sqrt r weight).map (fun ws => ws.map (· * c)) ∧
    scatter_of residuals (sigma_of Real.sqrt (r * c) weight) =
      (scatter_of residuals (sigma_of Real.sqrt r weight)).map
        (fun pol => pol.map (fun row => row.map (fun z => cdivR z c))) := by
  refine ⟨sigma_of_mul Real.sqrt r c weight, ?_⟩
  rw [sigma_of_mul Real.sqrt r c weight, scatter_of_map_mul]

/-- Witness for C4: doubling the rescale on the unit window. -/
theorem c4_rescale_linear_witness :
    sigma_of Real.sqrt (1 * 2) [[(1 : ℝ)]] =
      (sigma_of Real.sqrt 1 [[(1 : ℝ)]]).map (fun ws => ws.map (· * 2)) ∧
    scatter_of [[[((1 : ℝ), (0 : ℝ))]]] (sigma_of Real.sqrt (1 * 2) [[1]]) =
      (scatter_of [[[((1 : ℝ), (0 : ℝ))]]] (sigma_of Real.sqrt 1 [[1]])).map
        (fun pol => pol.map (fun row => row.map (fun z => cdivR z 2))) :=
  c4_rescale_linear [[1]] [[[(1, 0)]]] 1 (by simp) 2

/-- Witness for C10 on the unit window. -/
theorem c10_mask_order_witness :
    get_scatter_datadescid Real.sqrt unitQuery 1 true =
      .ok (.flat (([[((1 : ℝ), (0 : ℝ))]].flatten.zip [[false]].flatten).filterMap maskFn),
           .flat (([[((1 : ℝ), (0 : ℝ))]].flatten.zip [[false]].flatten).filterMap maskFn)) ∧
    (([[((1 : ℝ), (0 : ℝ))]].flatten.zip [[false]].flatten).filterMap maskFn).length =
      [[false]].flatten.countP (fun b => !b) ∧
    (([[((1 : ℝ), (0 : ℝ))]].flatten.zip [[false]].flatten).filterMap maskFn).length =
      [[false]].flatten.countP (fun b => !b) :=
  c10_mask_order unitQuery 1 [[(1, 0)]] [[(1, 0)]] [[false]] [[false]]
    (by simp [unitQuery]) unitQuery_scatter rfl (by simp) (by simp)

end VisRead
